import Mathlib

/-!
Verification development for the vector-editor CLI core (src/main.py).

The repository ships only `main.py` (class `VectorEditor`); the shape
classes it imports (`shape.py`, `shapes_2d.py`, `shapes_3d.py`) are not in
the source tree, so their constructors, validation and `get_info` are
modelled from the specification and marked as such.  Everything about
`VectorEditor` itself (token parsing, name defaulting, id assignment,
dictionary bookkeeping, delete/clear/info) is translated directly from
`main.py`.

Numeric values are modelled over `ℚ` (Python floats are finite decimals in
every behaviour the claims mention); Python `int` versus `float` runtime
types are kept apart by the `PyVal` tag, because the CLI chooses between
`int(...)` and `float(...)` per token.
-/

namespace VectorEditor

/-- A numeric value as produced by the CLI coercion step: either a Python
`int` or a Python `float` (modelled as an exact rational). -/
inductive PyVal where
  | pint (n : ℤ)
  | pfloat (q : ℚ)
  deriving DecidableEq, Repr

/-- Numeric magnitude of a `PyVal`, forgetting the int/float tag. -/
def PyVal.toQ : PyVal → ℚ
  | .pint n => (n : ℚ)
  | .pfloat q => q

/-- Digit run at the front of a character list: the digits and the rest. -/
def takeDigits (cs : List Char) : List Char × List Char :=
  (cs.takeWhile Char.isDigit, cs.dropWhile Char.isDigit)

/-- Natural value of a list of decimal digit characters. -/
def digitsVal (ds : List Char) : ℕ :=
  ds.foldl (fun a c => a * 10 + (c.toNat - 48)) 0

/-- Strip one optional leading sign; returns the sign as `1` or `-1`. -/
def stripSign : List Char → ℤ × List Char
  | '-' :: cs => (-1, cs)
  | '+' :: cs => (1, cs)
  | cs => (1, cs)

/-- Python `int(token)` on a whitespace-free token: optional sign followed
by a nonempty digit run, nothing else.  Returns `none` where Python raises
`ValueError`. -/
def pyInt (s : String) : Option ℤ :=
  let (sg, cs) := stripSign s.data
  let (ds, rest) := takeDigits cs
  if ds = [] ∨ rest ≠ [] then none
  else some (sg * (digitsVal ds : ℤ))

/-- Exponent suffix of a float literal: `e`/`E`, optional sign, nonempty
digit run; `some 0` when absent.  `none` where the literal is malformed. -/
def parseExp : List Char → Option ℤ
  | [] => some 0
  | c :: cs =>
      if c = 'e' ∨ c = 'E' then
        let (sg, cs2) := stripSign cs
        let (ds, rest) := takeDigits cs2
        if ds = [] ∨ rest ≠ [] then none
        else some (sg * (digitsVal ds : ℤ))
      else none

/-- Python `float(token)` on a whitespace-free finite decimal literal:
optional sign, integer digits, optional fractional part, optional decimal
exponent (the forms the editor session can meaningfully use; the exotic
literals `inf`/`nan` denote non-finite values outside the geometric
domain and are not modelled).  Returns `none` where Python raises
`ValueError`. -/
def pyFloat (s : String) : Option ℚ :=
  let (sg, cs) := stripSign s.data
  let (ip, rest) := takeDigits cs
  match rest with
  | '.' :: rest2 =>
      let (fp, rest3) := takeDigits rest2
      if ip = [] ∧ fp = [] then none
      else
        match parseExp rest3 with
        | none => none
        | some e =>
            some ((sg : ℚ) * ((digitsVal ip : ℚ) + (digitsVal fp : ℚ) / (10 : ℚ) ^ fp.length)
                  * (10 : ℚ) ^ e)
  | _ =>
      if ip = [] then none
      else
        match parseExp rest with
        | none => none
        | some e => some ((sg : ℚ) * (digitsVal ip : ℚ) * (10 : ℚ) ^ e)

/-- Python `str.lower()`: every character lowercased (character-wise, as
for the ASCII command and type tokens the editor compares). -/
def pyLower (s : String) : String :=
  ⟨s.data.map Char.toLower⟩

/-- Python `str.capitalize()`: first character uppercased, the remaining
characters lowercased. -/
def pyCapitalize (s : String) : String :=
  match s.data with
  | [] => ""
  | c :: cs => ⟨c.toUpper :: cs.map Char.toLower⟩

/-- Modelled from the spec: the single error kind at the core boundary,
`ValidationError`, carrying which parameter failed and why (the shape
modules `shape.py`, `shapes_2d.py`, `shapes_3d.py` are absent from the
source tree). -/
structure ValidationError where
  param : String
  reason : String
  deriving DecidableEq, Repr

/-- Modelled from the spec: the geometric attributes of each concrete
variant (table of section 3; the shape modules are absent from the source
tree).  `num_sides` is an integer, every other attribute a real number
modelled as `ℚ`. -/
inductive ShapeData where
  | point (x y : ℚ)
  | line (x1 y1 x2 y2 : ℚ)
  | circle (center_x center_y radius : ℚ)
  | square (x y side_length : ℚ)
  | rectangle (x y width height : ℚ)
  | polygon (center_x center_y : ℚ) (num_sides : ℤ) (side_length : ℚ)
  | parallelepiped (x y z width height depth : ℚ)
  | tetrahedron (x y z edge_length : ℚ)
  deriving DecidableEq, Repr

/-- Modelled from the spec: a constructed shape.  `id` is assigned by the
editor after construction (`none` until then), `name` is display metadata,
`data` the variant with its geometric attributes. -/
structure Shape where
  id : Option ℤ
  name : String
  data : ShapeData
  deriving DecidableEq, Repr

/-- Modelled from the spec: the symbolic variant name exposed as the
`type` entry of `get_info()`. -/
def variantName : ShapeData → String
  | .point .. => "Point"
  | .line .. => "Line"
  | .circle .. => "Circle"
  | .square .. => "Square"
  | .rectangle .. => "Rectangle"
  | .polygon .. => "RegularPolygon"
  | .parallelepiped .. => "Parallelepiped"
  | .tetrahedron .. => "Tetrahedron"

/-- Modelled from the spec: exact closed-form value of a derived quantity
(the spec computes with double-precision floats; the closed forms are kept
symbolic so that equality of `get_info` mappings is exact). -/
inductive RVal where
  | rat (q : ℚ)
  | piMul (q : ℚ)
  | sqrtQ (q : ℚ)
  | sqrtMul (a b : ℚ)
  | polyArea (n : ℤ) (s : ℚ)
  deriving DecidableEq, Repr

/-- A value stored in the `get_info()` mapping. -/
inductive InfoVal where
  | str (s : String)
  | int (n : ℤ)
  | optInt (o : Option ℤ)
  | real (v : RVal)
  deriving DecidableEq, Repr

/-- Modelled from the spec: `get_info()` returns a mapping with `id`,
`name`, `type`, every geometric attribute and every derived quantity of
the variant (sections 3 and 4.1); a pure read of the shape. -/
def getInfo (sh : Shape) : List (String × InfoVal) :=
  [("id", .optInt sh.id), ("name", .str sh.name), ("type", .str (variantName sh.data))] ++
  match sh.data with
  | .point x y => [("x", .real (.rat x)), ("y", .real (.rat y))]
  | .line x1 y1 x2 y2 =>
      [("x1", .real (.rat x1)), ("y1", .real (.rat y1)),
       ("x2", .real (.rat x2)), ("y2", .real (.rat y2)),
       ("length", .real (.sqrtQ ((x2 - x1) ^ 2 + (y2 - y1) ^ 2)))]
  | .circle cx cy r =>
      [("center_x", .real (.rat cx)), ("center_y", .real (.rat cy)),
       ("radius", .real (.rat r)),
       ("circumference", .real (.piMul (2 * r))), ("area", .real (.piMul (r ^ 2)))]
  | .square x y s =>
      [("x", .real (.rat x)), ("y", .real (.rat y)),
       ("side_length", .real (.rat s)),
       ("perimeter", .real (.rat (4 * s))), ("area", .real (.rat (s ^ 2)))]
  | .rectangle x y w h =>
      [("x", .real (.rat x)), ("y", .real (.rat y)),
       ("width", .real (.rat w)), ("height", .real (.rat h)),
       ("perimeter", .real (.rat (2 * (w + h)))), ("area", .real (.rat (w * h)))]
  | .polygon cx cy n s =>
      [("center_x", .real (.rat cx)), ("center_y", .real (.rat cy)),
       ("num_sides", .int n), ("side_length", .real (.rat s)),
       ("perimeter", .real (.rat ((n : ℚ) * s))), ("area", .real (.polyArea n s))]
  | .parallelepiped x y z w h d =>
      [("x", .real (.rat x)), ("y", .real (.rat y)), ("z", .real (.rat z)),
       ("width", .real (.rat w)), ("height", .real (.rat h)), ("depth", .real (.rat d)),
       ("surface_area", .real (.rat (2 * (w * h + w * d + h * d)))),
       ("volume", .real (.rat (w * h * d)))]
  | .tetrahedron x y z e =>
      [("x", .real (.rat x)), ("y", .real (.rat y)), ("z", .real (.rat z)),
       ("edge_length", .real (.rat e)),
       ("surface_area", .real (.sqrtMul (e ^ 2) 3)),
       ("volume", .real (.sqrtMul (e ^ 3 / 12) 2))]

/-- The eight concrete shape classes dispatched by the registry. -/
inductive ShapeClass where
  | point | line | circle | square | rectangle | polygon | parallelepiped | tetrahedron
  deriving DecidableEq, Repr

/-- Number of ordered numeric constructor parameters of each class
(matching the required-parameter lists of `main.py`). -/
def arity : ShapeClass → ℕ
  | .point => 2
  | .line => 4
  | .circle => 3
  | .square => 3
  | .rectangle => 4
  | .polygon => 4
  | .parallelepiped => 6
  | .tetrahedron => 4

/-- Modelled from the spec: the variant constructors (the shape modules
are absent from the source tree).  Construction validates all parameters
before any attribute is set: arity, positivity of every size parameter
(radius, side_length, width, height, depth, edge_length), and that
`num_sides` is an integer at least 3; coordinates are unconstrained.  On
violation it fails with a `ValidationError` naming the parameter and the
reason; the shape is never partially created. -/
def mkShape (c : ShapeClass) (ps : List PyVal) (name : String) :
    Except ValidationError Shape :=
  if ps.length = arity c then
    match c, ps with
    | .point, [x, y] => .ok ⟨none, name, .point x.toQ y.toQ⟩
    | .line, [x1, y1, x2, y2] => .ok ⟨none, name, .line x1.toQ y1.toQ x2.toQ y2.toQ⟩
    | .circle, [cx, cy, r] =>
        if r.toQ ≤ 0 then .error ⟨"radius", "must be a positive number"⟩
        else .ok ⟨none, name, .circle cx.toQ cy.toQ r.toQ⟩
    | .square, [x, y, s] =>
        if s.toQ ≤ 0 then .error ⟨"side_length", "must be a positive number"⟩
        else .ok ⟨none, name, .square x.toQ y.toQ s.toQ⟩
    | .rectangle, [x, y, w, h] =>
        if w.toQ ≤ 0 then .error ⟨"width", "must be a positive number"⟩
        else if h.toQ ≤ 0 then .error ⟨"height", "must be a positive number"⟩
        else .ok ⟨none, name, .rectangle x.toQ y.toQ w.toQ h.toQ⟩
    | .polygon, [cx, cy, n, s] =>
        match n with
        | .pfloat _ => .error ⟨"num_sides", "must be an integer"⟩
        | .pint m =>
            if m < 3 then .error ⟨"num_sides", "must be an integer of at least 3"⟩
            else if s.toQ ≤ 0 then .error ⟨"side_length", "must be a positive number"⟩
            else .ok ⟨none, name, .polygon cx.toQ cy.toQ m s.toQ⟩
    | .parallelepiped, [x, y, z, w, h, d] =>
        if w.toQ ≤ 0 then .error ⟨"width", "must be a positive number"⟩
        else if h.toQ ≤ 0 then .error ⟨"height", "must be a positive number"⟩
        else if d.toQ ≤ 0 then .error ⟨"depth", "must be a positive number"⟩
        else .ok ⟨none, name, .parallelepiped x.toQ y.toQ z.toQ w.toQ h.toQ d.toQ⟩
    | .tetrahedron, [x, y, z, e] =>
        if e.toQ ≤ 0 then .error ⟨"edge_length", "must be a positive number"⟩
        else .ok ⟨none, name, .tetrahedron x.toQ y.toQ z.toQ e.toQ⟩
    | _, _ => .error ⟨"params", "wrong number of parameters"⟩
  else .error ⟨"params", "wrong number of parameters"⟩

/-- The shape dictionary `self.shapes` (`id -> shape`), modelled as an
insertion-ordered association list with Python-dict semantics: unique
keys, assignment overwrites in place or appends. -/
abbrev ShapeDict := List (ℤ × Shape)

/-- Lookup a key, as `shapes[k]` / `k in shapes`. -/
def dictGet : ShapeDict → ℤ → Option Shape
  | [], _ => none
  | (k2, v) :: t, k => if k2 = k then some v else dictGet t k

/-- Assignment `shapes[k] = v`: overwrite the entry in place when the key
is present, append otherwise. -/
def dictInsert (d : ShapeDict) (k : ℤ) (v : Shape) : ShapeDict :=
  if d.any (fun p => p.1 = k) then
    d.map (fun p => if p.1 = k then (k, v) else p)
  else d ++ [(k, v)]

/-- Removal `shapes.pop(k)`: drops the entry with key `k` (on a dict keys
are unique, so the filter drops exactly that entry). -/
def dictPop (d : ShapeDict) (k : ℤ) : ShapeDict :=
  d.filter (fun p => p.1 ≠ k)

/-- Editor state: `self.shapes` and `self.next_id` of `VectorEditor`. -/
structure EditorState where
  shapes : ShapeDict
  next_id : ℤ
  deriving DecidableEq, Repr

/-- The state set up by `VectorEditor.__init__`: no shapes, counter 1. -/
def initState : EditorState := ⟨[], 1⟩

/-- The registry `self.shape_types`: symbolic type name, constructor class
and required parameter list. -/
def shapeTypes : List (String × ShapeClass × List String) :=
  [("point", .point, ["x", "y"]),
   ("line", .line, ["x1", "y1", "x2", "y2"]),
   ("circle", .circle, ["center_x", "center_y", "radius"]),
   ("square", .square, ["x", "y", "side_length"]),
   ("rectangle", .rectangle, ["x", "y", "width", "height"]),
   ("polygon", .polygon, ["center_x", "center_y", "num_sides", "side_length"]),
   ("parallelepiped", .parallelepiped, ["x", "y", "z", "width", "height", "depth"]),
   ("tetrahedron", .tetrahedron, ["x", "y", "z", "edge_length"])]

/-- Registry lookup `shape_type in self.shape_types`. -/
def lookupType (t : String) : Option (ShapeClass × List String) :=
  (shapeTypes.find? (fun p => p.1 = t)).map (fun p => p.2)

/-- One iteration of the coercion loop of `create_shape` (lines 128-139):
a polygon token string-equal to `params[2]` goes through `int(...)`, every
other token through `float(...)`. -/
def coerceToken (shape_type third p : String) : Option PyVal :=
  if shape_type = "polygon" ∧ p = third then (pyInt p).map .pint
  else (pyFloat p).map .pfloat

/-- The coercion loop body over the token list: all tokens coerce or the
loop fails with the first `ValueError`. -/
def coerceAll (shape_type third : String) : List String → Option (List PyVal)
  | [] => some []
  | p :: ps =>
      match coerceToken shape_type third p with
      | none => none
      | some v =>
          match coerceAll shape_type third ps with
          | none => none
          | some vs => some (v :: vs)

/-- The whole coercion loop of `create_shape` (lines 128-139); which token
failed is not observable, the CLI prints one generic message. -/
def parseParams (shape_type : String) (params : List String) : Option (List PyVal) :=
  coerceAll shape_type (params.getD 2 "") params

/-- Outcome of `create_shape`, one constructor per printed message. -/
inductive CreateResult where
  | noType
  | unknownType (t : String)
  | tooFewParams (t : String)
  | nonNumeric
  | failed (e : ValidationError)
  | created (sh : Shape)
  deriving DecidableEq, Repr

/-- The display name chosen by `create_shape` (lines 141-147): the token
after the parameters when present, otherwise the capitalized type with the
current counter value. -/
def chosenName (shape_type : String) (args : List String) (plen : ℕ) (nid : ℤ) : String :=
  if plen + 1 < args.length then args.getD (plen + 1) ""
  else pyCapitalize shape_type ++ " " ++ toString nid

/-- The `try` block of `create_shape` (lines 150-161): construct, then on
success assign `shape.id = next_id`, store, increment the counter; on
exception leave the state untouched. -/
def finishCreate (s : EditorState) (c : ShapeClass) (nps : List PyVal) (name : String) :
    EditorState × CreateResult :=
  match mkShape c nps name with
  | .error e => (s, .failed e)
  | .ok sh =>
      let sh2 : Shape := { sh with id := some s.next_id }
      (⟨dictInsert s.shapes s.next_id sh2, s.next_id + 1⟩, .created sh2)

/-- `VectorEditor.create_shape` (lines 98-161). -/
def createShape (s : EditorState) (args : List String) : EditorState × CreateResult :=
  match args with
  | [] => (s, .noType)
  | a0 :: rest =>
      let shape_type := pyLower a0
      match lookupType shape_type with
      | none => (s, .unknownType shape_type)
      | some (c, required) =>
          if rest.length < required.length then (s, .tooFewParams shape_type)
          else
            match parseParams shape_type (rest.take required.length) with
            | none => (s, .nonNumeric)
            | some nps =>
                finishCreate s c nps
                  (chosenName shape_type (a0 :: rest) required.length s.next_id)

/-- Outcome of `delete_shape`, one constructor per printed message. -/
inductive DeleteResult where
  | noId
  | badId
  | notFound (i : ℤ)
  | deleted (i : ℤ) (sh : Shape)
  deriving DecidableEq, Repr

/-- `VectorEditor.delete_shape` (lines 205-227). -/
def deleteShape (s : EditorState) (args : List String) : EditorState × DeleteResult :=
  match args with
  | [] => (s, .noId)
  | a0 :: _ =>
      match pyInt a0 with
      | none => (s, .badId)
      | some i =>
          match dictGet s.shapes i with
          | none => (s, .notFound i)
          | some sh => (⟨dictPop s.shapes i, s.next_id⟩, .deleted i sh)

/-- Outcome of `show_shape_info`, one constructor per printed message. -/
inductive InfoResult where
  | noId
  | badId
  | notFound (i : ℤ)
  | info (i : ℤ) (m : List (String × InfoVal))
  deriving DecidableEq, Repr

/-- `VectorEditor.show_shape_info` (lines 178-203): a read of the state
that prints `shape.get_info()`. -/
def showShapeInfo (s : EditorState) (args : List String) : EditorState × InfoResult :=
  match args with
  | [] => (s, .noId)
  | a0 :: _ =>
      match pyInt a0 with
      | none => (s, .badId)
      | some i =>
          match dictGet s.shapes i with
          | none => (s, .notFound i)
          | some sh => (s, .info i (getInfo sh))

/-- `VectorEditor.clear_shapes` (lines 229-238): empties the dictionary,
reports the count, leaves the counter alone. -/
def clearShapes (s : EditorState) : EditorState × ℕ :=
  (⟨[], s.next_id⟩, s.shapes.length)

/-- `VectorEditor.list_shapes` (lines 163-176): prints the stored shapes,
touching nothing. -/
def listShapes (s : EditorState) : List (ℤ × Shape) := s.shapes

/-- A state-relevant command of one editor session (`help`, `list` and
`info` read only; `exit` ends the session without touching the state). -/
inductive Cmd where
  | create (args : List String)
  | delete (args : List String)
  | info (args : List String)
  | clear
  | list
  | help
  deriving Repr

/-- State transition of one command, as dispatched by `process_command`
through `self.commands`. -/
def applyCmd (s : EditorState) : Cmd → EditorState
  | .create a => (createShape s a).1
  | .delete a => (deleteShape s a).1
  | .info a => (showShapeInfo s a).1
  | .clear => (clearShapes s).1
  | .list => s
  | .help => s

/-- State after a session running the given commands in order. -/
def runCmds (s : EditorState) (cmds : List Cmd) : EditorState :=
  cmds.foldl applyCmd s

/-- Like `runCmds` but also logs, in order, the id assigned by every
successful create (the counter value at the moment of assignment). -/
def applyCmdLog (p : EditorState × List ℤ) (c : Cmd) : EditorState × List ℤ :=
  match c with
  | .create a =>
      match (createShape p.1 a).2 with
      | .created _ => ((createShape p.1 a).1, p.2 ++ [p.1.next_id])
      | _ => ((createShape p.1 a).1, p.2)
  | c => (applyCmd p.1 c, p.2)

/-- Session run returning the final state and the log of assigned ids. -/
def runLog (s : EditorState) (cmds : List Cmd) : EditorState × List ℤ :=
  cmds.foldl applyCmdLog (s, [])

/-! Structural lemmas about the dictionary and the operations. -/

theorem dictGet_eq_none (d : ShapeDict) (k : ℤ) (h : ∀ p ∈ d, p.1 ≠ k) :
    dictGet d k = none := by
  induction d with
  | nil => rfl
  | cons hd tl ih =>
      have hne : hd.1 ≠ k := h hd (by simp)
      simp only [dictGet]
      rw [if_neg hne]
      exact ih (fun p hp => h p (by simp [hp]))

theorem dictInsert_fresh (d : ShapeDict) (k : ℤ) (v : Shape)
    (h : ∀ p ∈ d, p.1 ≠ k) : dictInsert d k v = d ++ [(k, v)] := by
  have : d.any (fun p => p.1 = k) = false := by
    simp only [List.any_eq_false]
    intro p hp
    simpa using h p hp
  simp [dictInsert, this]

theorem dictPop_of_absent (d : ShapeDict) (k : ℤ) (h : ∀ p ∈ d, p.1 ≠ k) :
    dictPop d k = d := by
  induction d with
  | nil => rfl
  | cons hd tl ih =>
      simp only [dictPop, List.filter_cons]
      have hne : hd.1 ≠ k := h hd (by simp)
      rw [if_pos (by simpa using hne)]
      rw [show List.filter (fun p => decide (p.1 ≠ k)) tl = dictPop tl k from rfl]
      rw [ih (fun p hp => h p (by simp [hp]))]

theorem dictGet_pop_self (d : ShapeDict) (k : ℤ) :
    dictGet (dictPop d k) k = none := by
  apply dictGet_eq_none
  intro p hp
  have := List.of_mem_filter hp
  simpa using this

theorem dictGet_pop_other (d : ShapeDict) (k j : ℤ) (h : j ≠ k) :
    dictGet (dictPop d k) j = dictGet d j := by
  induction d with
  | nil => rfl
  | cons hd tl ih =>
      by_cases hk : hd.1 = k
      · have hj : hd.1 ≠ j := by rw [hk]; exact fun hc => h hc.symm
        simp only [dictPop, List.filter_cons]
        rw [if_neg (by simpa using hk)]
        simp only [dictGet]
        rw [if_neg hj]
        exact ih
      · simp only [dictPop, List.filter_cons]
        rw [if_pos (by simpa using hk)]
        by_cases hj : hd.1 = j
        · simp [dictGet, hj]
        · simp only [dictGet]
          rw [if_neg hj, if_neg hj]
          exact ih

theorem dictPop_length (d : ShapeDict) (k : ℤ) (sh : Shape)
    (hnd : (d.map Prod.fst).Nodup) (hget : dictGet d k = some sh) :
    d.length = (dictPop d k).length + 1 := by
  induction d with
  | nil => simp [dictGet] at hget
  | cons hd tl ih =>
      simp only [List.map_cons, List.nodup_cons] at hnd
      by_cases hk : hd.1 = k
      · simp only [dictPop, List.filter_cons]
        rw [if_neg (by simpa using hk)]
        have habs : ∀ p ∈ tl, p.1 ≠ k := by
          intro p hp hc
          have hmem : p.1 ∈ List.map Prod.fst tl := List.mem_map_of_mem _ hp
          rw [hc, ← hk] at hmem
          exact hnd.1 hmem
        rw [show List.filter (fun p => decide (p.1 ≠ k)) tl = dictPop tl k from rfl]
        rw [dictPop_of_absent tl k habs]
        simp
      · simp only [dictGet] at hget
        rw [if_neg hk] at hget
        simp only [dictPop, List.filter_cons]
        rw [if_pos (by simpa using hk)]
        simp only [List.length_cons]
        rw [show List.filter (fun p => decide (p.1 ≠ k)) tl = dictPop tl k from rfl]
        rw [ih hnd.2 hget]

/-- Case analysis of `create_shape`: either the state is returned
untouched and nothing was created, or the result is `created` and the new
state stores the new shape under the old counter value, counter bumped. -/
theorem createShape_cases (s : EditorState) (args : List String) :
    ((createShape s args).1 = s ∧ ∀ sh, (createShape s args).2 ≠ .created sh) ∨
    (∃ sh, (createShape s args).2 = .created sh ∧ sh.id = some s.next_id ∧
      (createShape s args).1 = ⟨dictInsert s.shapes s.next_id sh, s.next_id + 1⟩) := by
  match args with
  | [] => exact Or.inl ⟨rfl, by simp [createShape]⟩
  | a0 :: rest =>
      simp only [createShape]
      rcases hl : lookupType (pyLower a0) with _ | ⟨c, required⟩
      · exact Or.inl ⟨rfl, by simp⟩
      · dsimp only
        by_cases hlen : rest.length < required.length
        · rw [if_pos hlen]
          exact Or.inl ⟨rfl, by simp⟩
        · rw [if_neg hlen]
          rcases hp : parseParams (pyLower a0) (rest.take required.length) with _ | nps
          · exact Or.inl ⟨rfl, by simp⟩
          · dsimp only [finishCreate]
            rcases hm : mkShape c nps
                (chosenName (pyLower a0) (a0 :: rest) required.length s.next_id) with e | sh
            · exact Or.inl ⟨rfl, by simp⟩
            · exact Or.inr ⟨{ sh with id := some s.next_id }, rfl, rfl, rfl⟩

/-- The state invariant of a session: keys are pairwise distinct, every
stored shape carries its key as id, and every key is below the counter. -/
def Inv (s : EditorState) : Prop :=
  (s.shapes.map Prod.fst).Nodup ∧
  (∀ p ∈ s.shapes, p.2.id = some p.1) ∧
  (∀ p ∈ s.shapes, p.1 < s.next_id)

theorem inv_init : Inv initState := by
  refine ⟨List.nodup_nil, ?_, ?_⟩ <;> intro p hp <;> simp [initState] at hp

theorem inv_create (s : EditorState) (args : List String) (h : Inv s) :
    Inv (createShape s args).1 := by
  rcases createShape_cases s args with ⟨hs, _⟩ | ⟨sh, _, hid, hs⟩
  · rw [hs]; exact h
  · rw [hs]
    obtain ⟨hnd, hids, hlt⟩ := h
    have hfresh : ∀ p ∈ s.shapes, p.1 ≠ s.next_id := by
      intro p hp hc
      exact absurd (hc ▸ hlt p hp) (lt_irrefl _)
    rw [dictInsert_fresh s.shapes s.next_id sh hfresh]
    refine ⟨?_, ?_, ?_⟩
    · rw [List.map_append]
      simp only [List.map_cons, List.map_nil]
      rw [List.nodup_append]
      refine ⟨hnd, List.nodup_singleton _, ?_⟩
      intro a ha hb
      simp only [List.mem_singleton] at hb
      rcases List.mem_map.1 ha with ⟨p, hp, hpa⟩
      exact hfresh p hp (hpa.trans hb)
    · intro p hp
      rcases List.mem_append.1 hp with hp | hp
      · exact hids p hp
      · simp only [List.mem_singleton] at hp
        rw [hp]
        exact hid
    · intro p hp
      dsimp only at hp ⊢
      rcases List.mem_append.1 hp with hp | hp
      · exact lt_trans (hlt p hp) (by omega)
      · simp only [List.mem_singleton] at hp
        rw [hp]
        exact by omega

theorem inv_delete (s : EditorState) (args : List String) (h : Inv s) :
    Inv (deleteShape s args).1 := by
  match args with
  | [] => exact h
  | a0 :: rest =>
      simp only [deleteShape]
      rcases pyInt a0 with _ | i
      · exact h
      · dsimp only
        rcases dictGet s.shapes i with _ | sh
        · exact h
        · dsimp only
          obtain ⟨hnd, hids, hlt⟩ := h
          refine ⟨?_, ?_, ?_⟩
          · exact List.Nodup.sublist
              ((List.filter_sublist s.shapes).map Prod.fst) hnd
          · intro p hp
            exact hids p (List.mem_of_mem_filter hp)
          · intro p hp
            exact hlt p (List.mem_of_mem_filter hp)

theorem inv_applyCmd (s : EditorState) (c : Cmd) (h : Inv s) : Inv (applyCmd s c) := by
  match c with
  | .create a => exact inv_create s a h
  | .delete a => exact inv_delete s a h
  | .info a =>
      show Inv (showShapeInfo s a).1
      match a with
      | [] => exact h
      | a0 :: rest =>
          simp only [showShapeInfo]
          rcases pyInt a0 with _ | i
          · exact h
          · dsimp only
            rcases dictGet s.shapes i with _ | sh
            · exact h
            · exact h
  | .clear =>
      refine ⟨List.nodup_nil, ?_, ?_⟩ <;> intro p hp <;>
        simp [applyCmd, clearShapes] at hp
  | .list => exact h
  | .help => exact h

theorem inv_runCmds (s : EditorState) (cmds : List Cmd) (h : Inv s) :
    Inv (runCmds s cmds) := by
  induction cmds generalizing s with
  | nil => exact h
  | cons c t ih => exact ih (applyCmd s c) (inv_applyCmd s c h)

theorem showShapeInfo_fst (s : EditorState) (args : List String) :
    (showShapeInfo s args).1 = s := by
  match args with
  | [] => rfl
  | a0 :: rest =>
      simp only [showShapeInfo]
      rcases pyInt a0 with _ | i
      · rfl
      · dsimp only
        rcases dictGet s.shapes i with _ | sh
        · rfl
        · rfl

theorem deleteShape_next_id (s : EditorState) (args : List String) :
    (deleteShape s args).1.next_id = s.next_id := by
  match args with
  | [] => rfl
  | a0 :: rest =>
      simp only [deleteShape]
      rcases pyInt a0 with _ | i
      · rfl
      · dsimp only
        rcases dictGet s.shapes i with _ | sh
        · rfl
        · rfl

theorem createShape_next_id_mono (s : EditorState) (args : List String) :
    s.next_id ≤ (createShape s args).1.next_id := by
  rcases createShape_cases s args with ⟨hs, _⟩ | ⟨sh, _, _, hs⟩ <;> rw [hs]
  dsimp only
  omega

theorem createShape_not_created (s : EditorState) (args : List String)
    (h : ∀ sh, (createShape s args).2 ≠ .created sh) : (createShape s args).1 = s := by
  rcases createShape_cases s args with ⟨hs, _⟩ | ⟨sh, heq, _, _⟩
  · exact hs
  · exact absurd heq (h sh)

theorem createShape_created (s : EditorState) (args : List String) (sh : Shape)
    (h : (createShape s args).2 = .created sh) :
    sh.id = some s.next_id ∧
    (createShape s args).1 = ⟨dictInsert s.shapes s.next_id sh, s.next_id + 1⟩ := by
  rcases createShape_cases s args with ⟨_, hn⟩ | ⟨sh2, heq, hid, hs⟩
  · exact absurd h (hn sh)
  · rw [h] at heq
    cases heq
    exact ⟨hid, hs⟩

theorem applyCmd_next_id_mono (s : EditorState) (c : Cmd) :
    s.next_id ≤ (applyCmd s c).next_id := by
  match c with
  | .create a => exact createShape_next_id_mono s a
  | .delete a => exact le_of_eq (deleteShape_next_id s a).symm
  | .info a => exact le_of_eq (congrArg EditorState.next_id (showShapeInfo_fst s a)).symm
  | .clear => exact le_refl _
  | .list => exact le_refl _
  | .help => exact le_refl _

theorem mkShape_ok_fields (c : ShapeClass) (ps : List PyVal) (nm : String) (sh : Shape)
    (h : mkShape c ps nm = .ok sh) : sh.name = nm ∧ sh.id = none := by
  unfold mkShape at h
  repeat' split at h
  all_goals simp_all
  all_goals (cases h; exact ⟨rfl, rfl⟩)

theorem coerceAll_get (st t : String) (ps : List String) (l : List PyVal)
    (h : coerceAll st t ps = some l) :
    l.length = ps.length ∧
    ∀ i (hi : i < ps.length) (hl : i < l.length),
      coerceToken st t (ps.get ⟨i, hi⟩) = some (l.get ⟨i, hl⟩) := by
  induction ps generalizing l with
  | nil =>
      simp only [coerceAll] at h
      cases h
      exact ⟨rfl, by intro i hi; exact absurd hi (by simp)⟩
  | cons p ps ih =>
      simp only [coerceAll] at h
      rcases hc : coerceToken st t p with _ | v
      · rw [hc] at h; cases h
      · rw [hc] at h
        rcases hr : coerceAll st t ps with _ | vs
        · rw [hr] at h; cases h
        · rw [hr] at h
          cases h
          obtain ⟨hlen, hget⟩ := ih vs hr
          refine ⟨by simp [hlen], ?_⟩
          intro i hi hl
          match i with
          | 0 => exact hc
          | Nat.succ j =>
              exact hget j (by simpa using hi) (by simpa using hl)

theorem applyCmdLog_step (p : EditorState × List ℤ) (c : Cmd)
    (hb : ∀ i ∈ p.2, i < p.1.next_id) (hp : p.2.Pairwise (· < ·)) :
    (∀ i ∈ (applyCmdLog p c).2, i < (applyCmdLog p c).1.next_id) ∧
    (applyCmdLog p c).2.Pairwise (· < ·) := by
  match c with
  | .create a =>
      simp only [applyCmdLog]
      rcases h : (createShape p.1 a).2 with _ | t | t | _ | e | sh
      case created =>
        dsimp only
        obtain ⟨hid, hs⟩ := createShape_created p.1 a sh h
        rw [hs]
        dsimp only
        constructor
        · intro i hi
          rcases List.mem_append.1 hi with hi | hi
          · exact lt_trans (hb i hi) (by omega)
          · simp only [List.mem_singleton] at hi
            omega
        · rw [List.pairwise_append]
          refine ⟨hp, List.pairwise_singleton _ _, ?_⟩
          intro x hx y hy
          simp only [List.mem_singleton] at hy
          rw [hy]
          exact hb x hx
      all_goals
        dsimp only
        exact ⟨fun i hi => lt_of_lt_of_le (hb i hi) (createShape_next_id_mono p.1 a), hp⟩
  | .delete a =>
      exact ⟨fun i hi => lt_of_lt_of_le (hb i hi) (applyCmd_next_id_mono p.1 (.delete a)), hp⟩
  | .info a =>
      exact ⟨fun i hi => lt_of_lt_of_le (hb i hi) (applyCmd_next_id_mono p.1 (.info a)), hp⟩
  | .clear =>
      exact ⟨fun i hi => lt_of_lt_of_le (hb i hi) (applyCmd_next_id_mono p.1 .clear), hp⟩
  | .list => exact ⟨hb, hp⟩
  | .help => exact ⟨hb, hp⟩

theorem foldl_log_invariant (cmds : List Cmd) (p : EditorState × List ℤ)
    (hb : ∀ i ∈ p.2, i < p.1.next_id) (hp : p.2.Pairwise (· < ·)) :
    (∀ i ∈ (cmds.foldl applyCmdLog p).2, i < (cmds.foldl applyCmdLog p).1.next_id) ∧
    (cmds.foldl applyCmdLog p).2.Pairwise (· < ·) := by
  induction cmds generalizing p with
  | nil => exact ⟨hb, hp⟩
  | cons c t ih =>
      obtain ⟨hb2, hp2⟩ := applyCmdLog_step p c hb hp
      exact ih (applyCmdLog p c) hb2 hp2

theorem runLog_pairwise (s : EditorState) (cmds : List Cmd) :
    (runLog s cmds).2.Pairwise (· < ·) :=
  (foldl_log_invariant cmds (s, [])
    (by intro i hi; exact absurd hi (List.not_mem_nil i)) (List.Pairwise.nil)).2

theorem runCmds_ids_nodup (cmds : List Cmd) :
    ((runCmds initState cmds).shapes.map (fun p => p.2.id)).Nodup := by
  obtain ⟨hnd, hids, _⟩ := inv_runCmds initState cmds inv_init
  have hmap : (runCmds initState cmds).shapes.map (fun p => p.2.id) =
      ((runCmds initState cmds).shapes.map Prod.fst).map some := by
    rw [List.map_map]
    exact List.map_congr_left (fun p hp => by simp [hids p hp])
  rw [hmap]
  exact hnd.map (Option.some_injective ℤ)

theorem runCmds_append_create (cmds : List Cmd) (args : List String) :
    runCmds initState (cmds ++ [Cmd.create args]) =
      (createShape (runCmds initState cmds) args).1 := by
  simp [runCmds, List.foldl_append, applyCmd]

/-! Claim theorems. -/

/-- Claim C1: for every create request, if the shape constructor fails then the
editor state is unchanged: no entry is added to the shapes dictionary and
`next_id` is not incremented, so a shape that fails validation is never
partially created and never becomes reachable by id. -/
theorem create_failure_preserves_state (s : EditorState) (args : List String)
    (e : ValidationError) (h : (createShape s args).2 = .failed e) :
    (createShape s args).1.shapes = s.shapes ∧
    (createShape s args).1.next_id = s.next_id := by
  have hs : (createShape s args).1 = s := by
    apply createShape_not_created
    intro sh hc
    rw [h] at hc
    cases hc
  rw [hs]
  exact ⟨rfl, rfl⟩

attribute [local semireducible] Rat.add Rat.mul Rat.sub Rat.inv Rat.ofScientific in
theorem create_failure_preserves_state_witness :
    (createShape initState ["circle", "0", "0", "-1"]).2 =
      CreateResult.failed ⟨"radius", "must be a positive number"⟩ ∧
    (createShape initState ["circle", "0", "0", "-1"]).1.shapes = initState.shapes ∧
    (createShape initState ["circle", "0", "0", "-1"]).1.next_id = initState.next_id := by
  refine ⟨by decide, ?_⟩
  exact create_failure_preserves_state initState
    ["circle", "0", "0", "-1"] ⟨"radius", "must be a positive number"⟩ (by decide)

/-- Claim C2: every successfully created shape receives its id from the editor
after construction: `shape.id` is set to the current `next_id`, which is
then incremented; and in every session state, before and after the create,
the stored shapes carry pairwise-distinct ids. -/
theorem create_assigns_fresh_unique_id (cmds : List Cmd) (args : List String) (sh : Shape)
    (h : (createShape (runCmds initState cmds) args).2 = .created sh) :
    sh.id = some (runCmds initState cmds).next_id ∧
    (createShape (runCmds initState cmds) args).1.next_id =
      (runCmds initState cmds).next_id + 1 ∧
    ((runCmds initState cmds).shapes.map (fun p => p.2.id)).Nodup ∧
    ((createShape (runCmds initState cmds) args).1.shapes.map (fun p => p.2.id)).Nodup := by
  obtain ⟨hid, hs⟩ := createShape_created (runCmds initState cmds) args sh h
  refine ⟨hid, by rw [hs], runCmds_ids_nodup cmds, ?_⟩
  rw [← runCmds_append_create cmds args]
  exact runCmds_ids_nodup (cmds ++ [Cmd.create args])

attribute [local semireducible] Rat.add Rat.mul Rat.sub Rat.inv Rat.ofScientific in
theorem create_assigns_fresh_unique_id_witness :
    (⟨some 1, "Point 1", ShapeData.point 0 0⟩ : Shape).id =
      some (runCmds initState []).next_id ∧
    (createShape (runCmds initState []) ["point", "0", "0"]).1.next_id =
      (runCmds initState []).next_id + 1 ∧
    ((runCmds initState []).shapes.map (fun p => p.2.id)).Nodup ∧
    ((createShape (runCmds initState []) ["point", "0", "0"]).1.shapes.map
      (fun p => p.2.id)).Nodup :=
  create_assigns_fresh_unique_id [] ["point", "0", "0"]
    ⟨some 1, "Point 1", ShapeData.point 0 0⟩ (by decide)

/-- Claim C6: a construction attempt with the wrong number of parameters fails
with a `ValidationError` returned by the constructor call itself, carrying
which parameter list failed and why. -/
theorem wrong_arity_fails_validation (c : ShapeClass) (ps : List PyVal) (nm : String)
    (h : ps.length ≠ arity c) :
    mkShape c ps nm = .error ⟨"params", "wrong number of parameters"⟩ := by
  unfold mkShape
  rw [if_neg h]

theorem wrong_arity_fails_validation_witness :
    mkShape ShapeClass.circle [PyVal.pfloat 1] ("n") =
      .error ⟨"params", "wrong number of parameters"⟩ :=
  wrong_arity_fails_validation ShapeClass.circle [PyVal.pfloat 1] ("n") (by decide)

/-- Claim C7: deleting a stored id removes exactly that entry, leaves every
other stored shape and `next_id` unchanged; deleting with a non-numeric
token or an absent id leaves the whole state unchanged. -/
theorem delete_frame_conditions (s : EditorState) (tok : String) (rest : List String)
    (i : ℤ) (sh : Shape) :
    ((deleteShape s []).1 = s) ∧
    (pyInt tok = none → (deleteShape s (tok :: rest)).1 = s) ∧
    (pyInt tok = some i → dictGet s.shapes i = none →
      (deleteShape s (tok :: rest)).1 = s) ∧
    (pyInt tok = some i → dictGet s.shapes i = some sh →
      (deleteShape s (tok :: rest)).1.next_id = s.next_id ∧
      dictGet (deleteShape s (tok :: rest)).1.shapes i = none ∧
      (∀ j, j ≠ i → dictGet (deleteShape s (tok :: rest)).1.shapes j = dictGet s.shapes j) ∧
      ((s.shapes.map Prod.fst).Nodup →
        s.shapes.length = (deleteShape s (tok :: rest)).1.shapes.length + 1) ∧
      (deleteShape s (tok :: rest)).2 = .deleted i sh) := by
  refine ⟨rfl, ?_, ?_, ?_⟩
  · intro h
    simp [deleteShape, h]
  · intro h1 h2
    simp [deleteShape, h1, h2]
  · intro h1 h2
    have hred : deleteShape s (tok :: rest) =
        (⟨dictPop s.shapes i, s.next_id⟩, .deleted i sh) := by
      simp [deleteShape, h1, h2]
    rw [hred]
    exact ⟨rfl, dictGet_pop_self s.shapes i,
      fun j hj => dictGet_pop_other s.shapes i j hj,
      fun hnd => dictPop_length s.shapes i sh hnd h2, rfl⟩

attribute [local semireducible] Rat.add Rat.mul Rat.sub Rat.inv Rat.ofScientific in
theorem delete_frame_conditions_witness :
    pyInt ("1") = some 1 ∧
    dictGet (createShape initState ["point", "1", "2"]).1.shapes 1 =
      some ⟨some 1, "Point 1", ShapeData.point 1 2⟩ ∧
    (deleteShape (createShape initState ["point", "1", "2"]).1 ["1"]).1.next_id =
      (createShape initState ["point", "1", "2"]).1.next_id ∧
    dictGet (deleteShape (createShape initState ["point", "1", "2"]).1 ["1"]).1.shapes 1 =
      none := by
  refine ⟨by decide, by decide, ?_⟩
  have h := (delete_frame_conditions (createShape initState ["point", "1", "2"]).1
      ("1") [] 1 ⟨some 1, "Point 1", ShapeData.point 1 2⟩).2.2.2 (by decide) (by decide)
  exact ⟨h.1, h.2.1⟩

/-- Claim C8: requesting the info of a shape is a pure read: the state is
unchanged, a repeated invocation returns the same answer, and `get_info`
on the same shape twice yields identical mappings. -/
theorem show_info_pure_read (s : EditorState) (args : List String) (sh : Shape) :
    (showShapeInfo s args).1 = s ∧
    showShapeInfo (showShapeInfo s args).1 args = showShapeInfo s args ∧
    getInfo sh = getInfo sh := by
  refine ⟨showShapeInfo_fst s args, ?_, rfl⟩
  rw [showShapeInfo_fst s args]

/-- Claim C9: `next_id` is never decreased: delete and clear leave it exactly
unchanged, create never lowers it, and the ids assigned over any session
starting from the initial state are pairwise distinct, so an id is never
reused even after its shape is deleted or the dictionary cleared. -/
theorem ids_monotone_never_reused (cmds : List Cmd) (s : EditorState) (a : List String) :
    (runLog initState cmds).2.Nodup ∧
    (deleteShape s a).1.next_id = s.next_id ∧
    (clearShapes s).1.next_id = s.next_id ∧
    s.next_id ≤ (createShape s a).1.next_id := by
  refine ⟨?_, deleteShape_next_id s a, rfl, createShape_next_id_mono s a⟩
  exact (runLog_pairwise initState cmds).imp (fun h => ne_of_lt h)

/-- Claim C4: constructing any size-bearing shape with a zero or negative size
parameter (radius, side_length, width, height, depth, edge_length) fails
with a `ValidationError`, while construction with positive sizes succeeds
for arbitrary coordinate values (zero and negative coordinates included);
Point and Line, which carry only coordinates, always succeed. -/
theorem size_positivity_validation (nm : String)
    (ccx ccy cr sx sy ss rx ry rw rh pcx pcy psl px py pz pw ph pd tx ty tz te
      ptx pty lx1 ly1 lx2 ly2 : ℚ) (n : ℤ) (hn : 3 ≤ n) :
    (cr ≤ 0 → ∃ err, mkShape .circle [.pfloat ccx, .pfloat ccy, .pfloat cr] nm = .error err) ∧
    (0 < cr → mkShape .circle [.pfloat ccx, .pfloat ccy, .pfloat cr] nm =
      .ok ⟨none, nm, .circle ccx ccy cr⟩) ∧
    (ss ≤ 0 → ∃ err, mkShape .square [.pfloat sx, .pfloat sy, .pfloat ss] nm = .error err) ∧
    (0 < ss → mkShape .square [.pfloat sx, .pfloat sy, .pfloat ss] nm =
      .ok ⟨none, nm, .square sx sy ss⟩) ∧
    (rw ≤ 0 ∨ rh ≤ 0 → ∃ err,
      mkShape .rectangle [.pfloat rx, .pfloat ry, .pfloat rw, .pfloat rh] nm = .error err) ∧
    (0 < rw → 0 < rh → mkShape .rectangle [.pfloat rx, .pfloat ry, .pfloat rw, .pfloat rh] nm =
      .ok ⟨none, nm, .rectangle rx ry rw rh⟩) ∧
    (psl ≤ 0 → ∃ err,
      mkShape .polygon [.pfloat pcx, .pfloat pcy, .pint n, .pfloat psl] nm = .error err) ∧
    (0 < psl → mkShape .polygon [.pfloat pcx, .pfloat pcy, .pint n, .pfloat psl] nm =
      .ok ⟨none, nm, .polygon pcx pcy n psl⟩) ∧
    (pw ≤ 0 ∨ ph ≤ 0 ∨ pd ≤ 0 → ∃ err,
      mkShape .parallelepiped
        [.pfloat px, .pfloat py, .pfloat pz, .pfloat pw, .pfloat ph, .pfloat pd] nm =
          .error err) ∧
    (0 < pw → 0 < ph → 0 < pd →
      mkShape .parallelepiped
        [.pfloat px, .pfloat py, .pfloat pz, .pfloat pw, .pfloat ph, .pfloat pd] nm =
          .ok ⟨none, nm, .parallelepiped px py pz pw ph pd⟩) ∧
    (te ≤ 0 → ∃ err,
      mkShape .tetrahedron [.pfloat tx, .pfloat ty, .pfloat tz, .pfloat te] nm = .error err) ∧
    (0 < te → mkShape .tetrahedron [.pfloat tx, .pfloat ty, .pfloat tz, .pfloat te] nm =
      .ok ⟨none, nm, .tetrahedron tx ty tz te⟩) ∧
    (mkShape .point [.pfloat ptx, .pfloat pty] nm = .ok ⟨none, nm, .point ptx pty⟩) ∧
    (mkShape .line [.pfloat lx1, .pfloat ly1, .pfloat lx2, .pfloat ly2] nm =
      .ok ⟨none, nm, .line lx1 ly1 lx2 ly2⟩) := by
  refine ⟨?_, ?_, ?_, ?_, ?_, ?_, ?_, ?_, ?_, ?_, ?_, ?_, ?_, ?_⟩
  · intro h
    exact ⟨⟨"radius", "must be a positive number"⟩, by simp [mkShape, arity, PyVal.toQ, h]⟩
  · intro h
    simp [mkShape, arity, PyVal.toQ, not_le.mpr h]
  · intro h
    exact ⟨⟨"side_length", "must be a positive number"⟩,
      by simp [mkShape, arity, PyVal.toQ, h]⟩
  · intro h
    simp [mkShape, arity, PyVal.toQ, not_le.mpr h]
  · intro h
    by_cases hw : rw ≤ 0
    · exact ⟨⟨"width", "must be a positive number"⟩,
        by simp [mkShape, arity, PyVal.toQ, hw]⟩
    · have hh : rh ≤ 0 := by rcases h with h | h; exact absurd h hw; exact h
      exact ⟨⟨"height", "must be a positive number"⟩,
        by simp [mkShape, arity, PyVal.toQ, hw, hh]⟩
  · intro h1 h2
    simp [mkShape, arity, PyVal.toQ, not_le.mpr h1, not_le.mpr h2]
  · intro h
    simp only [mkShape, arity, PyVal.toQ]
    rw [if_pos (by simp), if_neg (not_lt.mpr hn), if_pos h]
    exact ⟨_, rfl⟩
  · intro h
    simp only [mkShape, arity, PyVal.toQ]
    rw [if_pos (by simp), if_neg (not_lt.mpr hn), if_neg (not_le.mpr h)]
  · intro h
    by_cases hw : pw ≤ 0
    · exact ⟨⟨"width", "must be a positive number"⟩,
        by simp [mkShape, arity, PyVal.toQ, hw]⟩
    · by_cases hh : ph ≤ 0
      · exact ⟨⟨"height", "must be a positive number"⟩,
          by simp [mkShape, arity, PyVal.toQ, hw, hh]⟩
      · have hd : pd ≤ 0 := by
          rcases h with h | h | h
          · exact absurd h hw
          · exact absurd h hh
          · exact h
        exact ⟨⟨"depth", "must be a positive number"⟩,
          by simp [mkShape, arity, PyVal.toQ, hw, hh, hd]⟩
  · intro h1 h2 h3
    simp [mkShape, arity, PyVal.toQ, not_le.mpr h1, not_le.mpr h2, not_le.mpr h3]
  · intro h
    exact ⟨⟨"edge_length", "must be a positive number"⟩,
      by simp [mkShape, arity, PyVal.toQ, h]⟩
  · intro h
    simp [mkShape, arity, PyVal.toQ, not_le.mpr h]
  · simp [mkShape, arity, PyVal.toQ]
  · simp [mkShape, arity, PyVal.toQ]

theorem size_positivity_validation_witness :
    (∃ err, mkShape .circle [.pfloat 0, .pfloat 0, .pfloat (-1)] ("N") = .error err) ∧
    mkShape .circle [.pfloat (-5), .pfloat 0, .pfloat 2] ("N") =
      .ok ⟨none, "N", .circle (-5) 0 2⟩ ∧
    (∃ err, mkShape .tetrahedron [.pfloat 0, .pfloat 0, .pfloat 0, .pfloat 0] ("N") =
      .error err) ∧
    mkShape .polygon [.pfloat 0, .pfloat 0, .pint 3, .pfloat 1] ("N") =
      .ok ⟨none, "N", .polygon 0 0 3 1⟩ := by
  have h1 := size_positivity_validation ("N") 0 0 (-1) 0 0 1 0 0 1 1 0 0 1 0 0 0 1 1 1
    0 0 0 0 0 0 0 0 0 0 3 (by norm_num)
  have h2 := size_positivity_validation ("N") (-5) 0 2 0 0 1 0 0 1 1 0 0 1 0 0 0 1 1 1
    0 0 0 0 0 0 0 0 0 0 3 (by norm_num)
  exact ⟨h1.1 (by norm_num), h2.2.1 (by norm_num),
    h1.2.2.2.2.2.2.2.2.2.2.1 (by norm_num), h1.2.2.2.2.2.2.2.1 (by norm_num)⟩

theorem createShape_parsed (s : EditorState) (a0 : String) (rest : List String)
    (c : ShapeClass) (required : List String) (nps : List PyVal)
    (hl : lookupType (pyLower a0) = some (c, required))
    (hlen : ¬ rest.length < required.length)
    (hp : parseParams (pyLower a0) (rest.take required.length) = some nps) :
    createShape s (a0 :: rest) =
      finishCreate s c nps (chosenName (pyLower a0) (a0 :: rest) required.length s.next_id) := by
  simp only [createShape, hl]
  rw [if_neg hlen, hp]

attribute [local semireducible] Rat.add Rat.mul Rat.sub Rat.inv Rat.ofScientific in
/-- Claim C3 counterexample: the request `create polygon 0 0 3.5 1` carries only
numeric parameter tokens (each parses as a float), yet the CLI itself
rejects it at its coercion step, before any constructor runs and with the
state untouched: the side-count token is numeric but not an integer, so
the `int(...)` coercion in the CLI raises.  Hence integrality of the side
count is not checked only inside the constructor. -/
theorem cli_rejects_nonintegral_sides_token :
    (createShape initState ["polygon", "0", "0", "3.5", "1"]).2 =
      CreateResult.nonNumeric ∧
    (createShape initState ["polygon", "0", "0", "3.5", "1"]).1 = initState ∧
    pyFloat ("0") = some 0 ∧ pyFloat ("3.5") = some (7 / 2) ∧ pyFloat ("1") = some 1 := by
  exact ⟨by decide, by decide, by decide, by decide, by decide⟩

/-- Claim C3 (amended): once the tokens of a create request have been coerced,
the CLI performs no semantic validation of the values: the outcome is
decided entirely by the constructor — its `ValidationError` is the only
way the request can still fail, and its success is always stored.
(Positivity is checked only inside the constructor; integrality of the
side count, however, is partially enforced earlier by the CLI coercion
itself, as the counterexample shows.) -/
theorem cli_no_semantic_validation_after_coercion (s : EditorState) (a0 : String)
    (rest : List String) (c : ShapeClass) (required : List String) (nps : List PyVal)
    (hl : lookupType (pyLower a0) = some (c, required))
    (hlen : ¬ rest.length < required.length)
    (hp : parseParams (pyLower a0) (rest.take required.length) = some nps) :
    (∀ e2, (createShape s (a0 :: rest)).2 = .failed e2 ↔
      mkShape c nps (chosenName (pyLower a0) (a0 :: rest) required.length s.next_id) =
        .error e2) ∧
    (∀ sh, mkShape c nps (chosenName (pyLower a0) (a0 :: rest) required.length s.next_id) =
        .ok sh →
      (createShape s (a0 :: rest)).2 = .created { sh with id := some s.next_id }) := by
  have hred := createShape_parsed s a0 rest c required nps hl hlen hp
  constructor
  · intro e2
    rw [hred]
    unfold finishCreate
    rcases hm : mkShape c nps
        (chosenName (pyLower a0) (a0 :: rest) required.length s.next_id) with err | sh0 <;>
      simp
  · intro sh hm
    rw [hred]
    unfold finishCreate
    rw [hm]

attribute [local semireducible] Rat.add Rat.mul Rat.sub Rat.inv Rat.ofScientific in
theorem cli_no_semantic_validation_after_coercion_witness :
    (createShape initState ["circle", "0", "0", "-2"]).2 =
      CreateResult.failed ⟨"radius", "must be a positive number"⟩ := by
  have h := cli_no_semantic_validation_after_coercion initState ("circle")
    ["0", "0", "-2"] ShapeClass.circle ["center_x", "center_y", "radius"]
    [PyVal.pfloat 0, PyVal.pfloat 0, PyVal.pfloat (-2)]
    (by decide) (by decide) (by decide)
  exact (h.1 ⟨"radius", "must be a positive number"⟩).2 (by rfl)

attribute [local semireducible] Rat.add Rat.mul Rat.sub Rat.inv Rat.ofScientific in
/-- Claim C5 counterexample: `create polygon 0 0 3 1` without a name token
yields the default name "Polygon 1", built from the capitalized command
token, while the variant type name is "RegularPolygon" — so the default
name is not the variant type name followed by the id. -/
theorem default_name_not_variant_name_for_polygon :
    (createShape initState ["polygon", "0", "0", "3", "1"]).2 =
      CreateResult.created ⟨some 1, "Polygon 1", ShapeData.polygon 0 0 3 1⟩ ∧
    variantName (ShapeData.polygon 0 0 3 1) ++ " " ++ toString (1 : ℤ) =
      "RegularPolygon 1" ∧
    "Polygon 1" ≠ "RegularPolygon 1" := by
  exact ⟨by decide, by decide, by decide⟩

/-- Claim C5 (amended): when no display name token is supplied, the created
shape receives the default name formed from the capitalized command type
token followed by a space and the assigned id (this coincides with the
variant type name for every type except `polygon`, whose variant name is
`RegularPolygon` but whose default name uses `Polygon`). -/
theorem default_name_from_command_token (s : EditorState) (a0 : String)
    (rest : List String) (c : ShapeClass) (required : List String) (sh : Shape)
    (hl : lookupType (pyLower a0) = some (c, required))
    (hexact : rest.length = required.length)
    (h : (createShape s (a0 :: rest)).2 = .created sh) :
    sh.name = pyCapitalize (pyLower a0) ++ " " ++ toString s.next_id ∧
    sh.id = some s.next_id := by
  have hid := (createShape_created s (a0 :: rest) sh h).1
  refine ⟨?_, hid⟩
  have hlen : ¬ rest.length < required.length := by omega
  rcases hp : parseParams (pyLower a0) (rest.take required.length) with _ | nps
  · have hbad : (createShape s (a0 :: rest)).2 = .nonNumeric := by
      simp only [createShape, hl]
      rw [if_neg hlen, hp]
    rw [hbad] at h
    cases h
  · have hred := createShape_parsed s a0 rest c required nps hl hlen hp
    rw [hred] at h
    unfold finishCreate at h
    rcases hm : mkShape c nps
        (chosenName (pyLower a0) (a0 :: rest) required.length s.next_id) with err | sh0
    · rw [hm] at h
      cases h
    · rw [hm] at h
      dsimp only at h
      injection h with h2
      obtain ⟨hname, _⟩ := mkShape_ok_fields c nps _ sh0 hm
      rw [← h2]
      dsimp only
      rw [hname]
      unfold chosenName
      have hnolen : ¬ (required.length + 1 < (a0 :: rest).length) := by
        simp only [List.length_cons]
        omega
      rw [if_neg hnolen]

attribute [local semireducible] Rat.add Rat.mul Rat.sub Rat.inv Rat.ofScientific in
theorem default_name_from_command_token_witness :
    (⟨some 1, "Circle 1", ShapeData.circle 1 2 3⟩ : Shape).name =
      pyCapitalize (pyLower ("circle")) ++ " " ++ toString initState.next_id ∧
    (⟨some 1, "Circle 1", ShapeData.circle 1 2 3⟩ : Shape).id = some initState.next_id :=
  default_name_from_command_token initState ("circle") ["1", "2", "3"]
    ShapeClass.circle ["center_x", "center_y", "radius"]
    ⟨some 1, "Circle 1", ShapeData.circle 1 2 3⟩ (by decide) (by decide) (by decide)

/-- Claim C10: when creating a polygon, every parameter token that is
string-equal to the third parameter token (the `num_sides` token) is
coerced with `int(...)` — not only the token in the `num_sides` position —
so a side-length or center token identical to the `num_sides` token
reaches the constructor as an int instead of a float, and every other
token is coerced with `float(...)`. -/
theorem polygon_equal_tokens_coerced_as_int (ps : List String) (l : List PyVal)
    (i : ℕ) (hi : i < ps.length) (h : parseParams ("polygon") ps = some l) :
    l.length = ps.length ∧
    ∀ (hl : i < l.length),
      (ps.get ⟨i, hi⟩ = ps.getD 2 "" →
        ∃ n, pyInt (ps.get ⟨i, hi⟩) = some n ∧ l.get ⟨i, hl⟩ = .pint n) ∧
      (ps.get ⟨i, hi⟩ ≠ ps.getD 2 "" →
        ∃ q, pyFloat (ps.get ⟨i, hi⟩) = some q ∧ l.get ⟨i, hl⟩ = .pfloat q) := by
  obtain ⟨hlen, hget⟩ := coerceAll_get ("polygon") (ps.getD 2 "") ps l h
  refine ⟨hlen, ?_⟩
  intro hl
  have hc := hget i hi hl
  unfold coerceToken at hc
  constructor
  · intro heq
    rw [if_pos ⟨rfl, heq⟩] at hc
    rcases hpy : pyInt (ps.get ⟨i, hi⟩) with _ | n
    · rw [hpy] at hc
      cases hc
    · rw [hpy] at hc
      injection hc with h2
      exact ⟨n, rfl, h2.symm⟩
  · intro hne
    rw [if_neg (fun hand => hne hand.2)] at hc
    rcases hpy : pyFloat (ps.get ⟨i, hi⟩) with _ | q
    · rw [hpy] at hc
      cases hc
    · rw [hpy] at hc
      injection hc with h2
      exact ⟨q, rfl, h2.symm⟩

attribute [local semireducible] Rat.add Rat.mul Rat.sub Rat.inv Rat.ofScientific in
theorem polygon_equal_tokens_coerced_as_int_witness :
    parseParams ("polygon") ["3", "1", "3", "3"] =
      some [PyVal.pint 3, PyVal.pfloat 1, PyVal.pint 3, PyVal.pint 3] ∧
    (∃ n, pyInt (["3", "1", "3", "3"].get ⟨3, by decide⟩) = some n ∧
      [PyVal.pint 3, PyVal.pfloat 1, PyVal.pint 3, PyVal.pint 3].get ⟨3, by decide⟩ =
        PyVal.pint n) := by
  refine ⟨by decide, ?_⟩
  exact ((polygon_equal_tokens_coerced_as_int ["3", "1", "3", "3"]
    [PyVal.pint 3, PyVal.pfloat 1, PyVal.pint 3, PyVal.pint 3] 3 (by decide)
    (by decide)).2 (by decide)).1 (by decide)

end VectorEditor
